import Mathlib

/-!
Shallow embedding of the freshservice_mcp repository core: the JSON data
model, the pagination aggregators of `src/freshservice_api`, the content
normalizer `clean_html_content`, and the MCP tool facades of
`src/freshservice_mcp`.  HTTP transport is abstracted as a function from
page numbers to responses; `async` is dropped (every modelled function is
sequential and deterministic).  Machine integers do not occur: Python ints
are unbounded, so `Int`/`Nat` model them directly.
-/

/-- A JSON value, as produced by `response.json()` in the Python source.
Python dicts are modelled as association lists in insertion order (Python
dicts preserve insertion order).  JSON numbers are modelled as `Int`;
the repository never manipulates fractional numeric fields. -/
inductive Json where
  | null
  | bool (b : Bool)
  | num (n : Int)
  | str (s : String)
  | arr (elems : List Json)
  | obj (fields : List (String × Json))

/-- Python truthiness of a JSON value: `None`, `False`, `0`, `""`, `[]`
and an empty dict are falsy, everything else is truthy. -/
def Json.truthy : Json → Bool
  | .null => false
  | .bool b => b
  | .num n => n != 0
  | .str s => s ≠ ""
  | .arr xs => ¬ xs.isEmpty
  | .obj fs => ¬ fs.isEmpty

/-- Dictionary lookup on a JSON value: `some v` when the value is an
object binding the key, `none` otherwise.  (Python raises on `.get` /
`in` for non-dict receivers; theorems only apply this to objects.) -/
def Json.objLookup : Json → String → Option Json
  | .obj fs, k => fs.lookup k
  | _, _ => none

/-- Python `dict.get(key, default)` on an object given by its fields. -/
def pyGetD (fs : List (String × Json)) (k : String) (default : Json) : Json :=
  (fs.lookup k).getD default

/-- Python `dict.get(key)` (default `None`) on an object given by its fields. -/
def pyGet (fs : List (String × Json)) (k : String) : Json :=
  pyGetD fs k .null

/-- The whitespace set of Python `str.strip()` (ASCII fragment; the
source never feeds non-ASCII whitespace to `strip`). -/
def isPyWs (c : Char) : Bool :=
  c = ' ' || c = '\t' || c = '\n' || c = '\r' || c = '\x0b' || c = '\x0c'

/-- Python `str.strip()` on a character list. -/
def pyStripList (l : List Char) : List Char :=
  ((l.dropWhile isPyWs).reverse.dropWhile isPyWs).reverse

/-- Python `str.strip()`. -/
def pyStrip (s : String) : String :=
  String.mk (pyStripList s.toList)

/-- Python truthiness of `opt and opt.strip()` for an `Optional[str]`:
true exactly when the argument is present and not whitespace-only.
This is the validity test of the requester-search tool facade
(`src/freshservice_mcp/requesters.py`, lines 54-58). -/
def optStrValid : Option String → Bool
  | none => false
  | some s => pyStrip s ≠ ""

example : pyStrip "  a b \t\n" = "a b" := by decide
example : optStrValid (some "  \t ") = false := by decide
example : optStrValid none = false := by decide
example : optStrValid (some " x ") = true := by decide

/-- Auxiliary: `takeWhile` strictly shortens a list that contains an
element failing the predicate. -/
theorem length_takeWhile_lt_of_not {p : Char → Bool} {l : List Char} {a : Char}
    (ha : a ∈ l) (hpa : p a = false) : (l.takeWhile p).length < l.length := by
  induction l with
  | nil => cases ha
  | cons b t ih =>
    by_cases hpb : p b
    · simp only [List.takeWhile_cons, hpb, if_true, List.length_cons]
      rcases List.mem_cons.mp ha with rfl | hat
      · rw [hpa] at hpb; cases hpb
      · exact Nat.succ_lt_succ (ih hat)
    · simp only [List.takeWhile_cons, Bool.not_eq_true] at hpb
      simp [List.takeWhile_cons, hpb]

/-- Auxiliary: `dropWhile` never lengthens a list. -/
theorem length_dropWhile_le' (p : Char → Bool) (l : List Char) :
    (l.dropWhile p).length ≤ l.length := by
  induction l with
  | nil => simp [List.dropWhile]
  | cons b t ih =>
    by_cases hpb : p b
    · simp only [List.dropWhile_cons, hpb, if_true]
      exact Nat.le_succ_of_le ih
    · simp only [List.dropWhile_cons, Bool.not_eq_true] at hpb
      simp [List.dropWhile_cons, hpb]

/-- Auxiliary: `takeWhile` and `dropWhile` split the length of a list. -/
theorem length_takeWhile_add_dropWhile (p : Char → Bool) (l : List Char) :
    (l.takeWhile p).length + (l.dropWhile p).length = l.length := by
  have h := congrArg List.length (List.takeWhile_append_dropWhile (p := p) (l := l))
  rw [List.length_append] at h
  exact h

/-- The effect of `re.sub(r'\n\s*\n\s*\n', '\n\n', text)`
(`src/freshservice_api/solutions.py`, line 40) on a character list.
With CPython's leftmost, greedy-with-backtracking matching, each maximal
whitespace run containing at least three newlines is matched from its
first to its last newline and replaced by two newlines; runs with fewer
than three newlines contain no match.  `\s` is modelled by the ASCII
whitespace set (the source only produces ASCII whitespace here). -/
def collapseNewlines : List Char → List Char
  | [] => []
  | c :: rest =>
    if c = '\n' then
      if 3 ≤ (c :: rest.takeWhile isPyWs).count '\n' then
        '\n' :: '\n' :: collapseNewlines
          (((c :: rest.takeWhile isPyWs).reverse.takeWhile (· != '\n')).reverse
            ++ rest.dropWhile isPyWs)
      else (c :: rest.takeWhile isPyWs) ++ collapseNewlines (rest.dropWhile isPyWs)
    else c :: collapseNewlines rest
termination_by l => l.length
decreasing_by
  · rename_i hc _
    have hmem : '\n' ∈ (c :: rest.takeWhile isPyWs).reverse := by
      simp [hc]
    have h1 := length_takeWhile_lt_of_not (p := (· != '\n')) hmem (by simp)
    have h4 := length_takeWhile_add_dropWhile isPyWs rest
    simp only [List.length_append, List.length_reverse, List.length_cons] at h1 ⊢
    omega
  · have h2 := length_dropWhile_le' isPyWs rest
    simp only [List.length_cons]
    omega
  · simp [Nat.lt_succ_self]

/-- The effect of `re.sub(r'[ \t]+', ' ', text)`
(`src/freshservice_api/solutions.py`, line 41) on a character list:
each maximal run of spaces and tabs becomes a single space. -/
def collapseSpaces : List Char → List Char
  | [] => []
  | c :: rest =>
    if c = ' ' ∨ c = '\t' then
      ' ' :: collapseSpaces (rest.dropWhile (fun d => d = ' ' || d = '\t'))
    else c :: collapseSpaces rest
termination_by l => l.length
decreasing_by
  · have h := length_dropWhile_le' (fun d => d = ' ' || d = '\t') rest
    simp only [List.length_cons]
    omega
  · simp [Nat.lt_succ_self]

/-- The whitespace post-processing of `clean_html_content` string mode
(`src/freshservice_api/solutions.py`, lines 39-42): collapse newline
runs, collapse space/tab runs, then `strip()`. -/
def cleanupText (t : String) : String :=
  String.mk (pyStripList (collapseSpaces (collapseNewlines t.toList)))

/-- The fields rewritten by `clean_html_content` mapping mode
(`src/freshservice_api/solutions.py`, line 55). -/
def htmlFields : List String := ["description", "title", "summary"]

mutual

/-- Model of `clean_html_content` (`src/freshservice_api/solutions.py`,
lines 14-65).  The HTML-to-Markdown conversion performed by the external
`markdownify` library is abstracted as the parameter `md` (it is not part
of this repository); the whitespace cleanup that follows it is modelled
exactly by `cleanupText`.  String mode maps `""` to `""`; mapping mode
shallow-copies the dict and rewrites only the `htmlFields` entries that
are present and truthy; any other value passes through unchanged. -/
def clean_html_content (md : String → String) : Json → Json
  | .str s => if s = "" then .str "" else .str (cleanupText (md s))
  | .obj fs => if fs.isEmpty then .obj fs else .obj (cleanFields md fs)
  | j => j

/-- Entry-wise rewrite of mapping mode: the Python loop updates the keys
`description`, `title`, `summary` in place when present and truthy;
since Python dict keys are unique and insertion order is preserved, this
is the per-entry map below. -/
def cleanFields (md : String → String) : List (String × Json) → List (String × Json)
  | [] => []
  | (k, v) :: rest =>
      (if htmlFields.contains k && v.truthy then (k, clean_html_content md v) else (k, v))
        :: cleanFields md rest

end

/-- Python `repr` of a JSON value (used by `str()` on lists and dicts).
Strings are rendered with surrounding single quotes; the source only
interpolates scalar field values, so the string-escaping corner of
CPython `repr` (quote switching, escapes) is not reproduced. -/
def pyRepr : Json → String
  | .null => "None"
  | .bool b => if b then "True" else "False"
  | .num n => toString n
  | .str s => "\x27" ++ s ++ "\x27"
  | .arr xs => "[" ++ String.intercalate ", " (xs.attach.map (fun x => pyRepr x.1)) ++ "]"
  | .obj fs => "\x7b" ++ String.intercalate ", "
      (fs.attach.map (fun kv => "\x27" ++ kv.1.1 ++ "\x27: " ++ pyRepr kv.1.2)) ++ "\x7d"
termination_by j => sizeOf j
decreasing_by
  · have h := List.sizeOf_lt_of_mem x.2
    simp only [Json.arr.sizeOf_spec]
    omega
  · rcases kv with ⟨⟨a, b⟩, hm⟩
    have h := List.sizeOf_lt_of_mem hm
    simp only [Prod.mk.sizeOf_spec] at h
    simp only [Json.obj.sizeOf_spec]
    omega

/-- Python `str()` of a JSON value, as used in f-string interpolation. -/
def pyStr : Json → String
  | .str s => s
  | j => pyRepr j

/-- Outcome of one HTTP GET issued through `httpx` followed by
`response.raise_for_status()`.  `ok` carries the parsed JSON body;
`httpError` models an `httpx.HTTPStatusError` for a non-2xx status
(`errStr` is `str(e)`, `details` the parsed-or-text error body — both
opaque to this repository's logic); `exc` models any other exception
with `str(e)`.  An `HTTPStatusError` always carries a response, so the
status code is always present. -/
inductive HttpResult where
  | ok (body : Json)
  | httpError (status : Nat) (errStr : String) (details : Json)
  | exc (msg : String)

/-- Outcome of a pagination-aggregation run.  `ok` carries the
accumulated collection and the last page number requested.  `httpRaise`
and `excRaise` propagate an exception out of the loop.  `raised` marks a
run in which Python would raise on a malformed response body (e.g.
`len()` of a number) — those carry an exception message this model does
not reproduce, and theorems exclude them by shape hypotheses.
`outOfFuel` marks exhaustion of the explicit fuel that stands in for the
unbounded `while True`. -/
inductive AggResult where
  | ok (items : List Json) (lastPage : Nat)
  | httpRaise (status : Nat) (errStr : String) (details : Json)
  | excRaise (msg : String)
  | raised
  | outOfFuel

/-- The repeated pagination loop of `get_all_departments`
(`src/freshservice_api/departments.py`, lines 48-68),
`get_all_requesters_by_department_id`
(`src/freshservice_api/requesters.py`, lines 89-109) and
`search_all_articles` (`src/freshservice_api/solutions.py`, lines
116-138), which differ only in the collection key, in the per-page
post-processing of the fetched body (`post`; articles are cleaned inside
`search_articles`), and in the cleaning applied to items of a raw-list
response (`rawClean`).  Each iteration fetches page `page`; a dict body
contributes the value under `key` (which must be a list — Python raises
otherwise) or, when the key is absent, falls through to the raw branch
with zero items; a bare-list body contributes its `rawClean`-mapped
elements; scalars make Python raise at the `in` test, and a string body
raises only when it contains `key` as a substring.  The loop stops as
soon as the current page contributed fewer than `perPage` items. -/
def pagedFetchLoop (perPage : Nat) (key : String) (post : Json → Json) (rawClean : Json → Json)
    (backend : Nat → HttpResult) : Nat → Nat → List Json → AggResult
  | 0, _, _ => .outOfFuel
  | fuel + 1, page, acc =>
    match backend page with
    | .httpError status errStr details => .httpRaise status errStr details
    | .exc msg => .excRaise msg
    | .ok body =>
      match post body with
      | .obj fs =>
        match fs.lookup key with
        | some (.arr items) =>
          if items.length < perPage then .ok (acc ++ items) page
          else pagedFetchLoop perPage key post rawClean backend fuel (page + 1) (acc ++ items)
        | some _ => .raised
        | none =>
          -- current_items = [] (a dict is not a list); len([]) < perPage
          if 0 < perPage then .ok acc page
          else pagedFetchLoop perPage key post rawClean backend fuel (page + 1) acc
      | .arr xs =>
        if xs.any (fun j => match j with | .str s => s = key | _ => false) then .raised
        else if xs.length < perPage then .ok (acc ++ xs.map rawClean) page
        else pagedFetchLoop perPage key post rawClean backend fuel (page + 1) (acc ++ xs.map rawClean)
      | .str s =>
        if (s.splitOn key).length > 1 then .raised
        else if 0 < perPage then .ok acc page
        else pagedFetchLoop perPage key post rawClean backend fuel (page + 1) acc
      | _ => .raised

/-- Model of `DepartmentsAPI.get_all_departments`
(`src/freshservice_api/departments.py`, lines 38-70): page size 100,
collection key `departments`, no per-item processing.  The HTTP layer is
the `backend` function from page numbers to responses. -/
def DepartmentsAPI.get_all_departments (backend : Nat → HttpResult) (fuel : Nat) : AggResult :=
  pagedFetchLoop 100 "departments" (fun j => j) (fun j => j) backend fuel 1 []

/-- Model of `RequestersAPI.get_all_requesters_by_department_id`
(`src/freshservice_api/requesters.py`, lines 76-111): page size 100,
collection key `requesters`, no per-item processing.  The department id
only shapes the request URL and is absorbed into `backend`. -/
def RequestersAPI.get_all_requesters_by_department_id (backend : Nat → HttpResult) (fuel : Nat) :
    AggResult :=
  pagedFetchLoop 100 "requesters" (fun j => j) (fun j => j) backend fuel 1 []

/-- The response post-processing of `SolutionsAPI.search_articles`
(`src/freshservice_api/solutions.py`, lines 95-101): when the body is a
dict whose `articles` entry is present and truthy, that entry (a list —
Python would rebuild a truthy non-list item-wise, a corner excluded by
theorem hypotheses) is mapped through `clean_html_content`. -/
def SolutionsAPI.search_articles (md : String → String) (body : Json) : Json :=
  match body with
  | .obj fs =>
      .obj (fs.map (fun kv =>
        if kv.1 = "articles" && kv.2.truthy then
          (kv.1, match kv.2 with
                 | .arr xs => .arr (xs.map (clean_html_content md))
                 | v => v)
        else kv))
  | j => j

/-- The per-item cleaning of the raw-list fallback branch of
`search_all_articles` (`src/freshservice_api/solutions.py`, line 131):
dict items are cleaned, other items pass through. -/
def cleanIfDict (md : String → String) (item : Json) : Json :=
  match item with
  | .obj _ => clean_html_content md item
  | j => j

/-- Model of `SolutionsAPI.search_all_articles`
(`src/freshservice_api/solutions.py`, lines 103-140): page size 100,
collection key `articles`, each fetched body post-processed by
`search_articles`, raw-list items cleaned via `cleanIfDict`. -/
def SolutionsAPI.search_all_articles (md : String → String) (backend : Nat → HttpResult)
    (fuel : Nat) : AggResult :=
  pagedFetchLoop 100 "articles" (SolutionsAPI.search_articles md) (cleanIfDict md) backend fuel 1 []

/-- Python `len(data.get("service_items", []))`
(`src/freshservice_api/service.py`, lines 57-58): `some 0` when the key
is absent, the length for list/str/dict values (all sized in Python),
`none` when Python would raise (non-dict body, or unsized value). -/
def serviceItemsLen : Json → Option Nat
  | .obj fs =>
      match fs.lookup "service_items" with
      | none => some 0
      | some (.arr xs) => some xs.length
      | some (.str s) => some s.length
      | some (.obj gs) => some gs.length
      | some _ => none
  | _ => none

/-- The nested `service_items` array of a page-response object, empty
when the key is absent or the value is not an array. -/
def service_items_of : Json → List Json
  | .obj fs =>
      match fs.lookup "service_items" with
      | some (.arr xs) => xs
      | _ => []
  | _ => []

/-- The pagination loop of `ServiceItemsAPI.get_all_service_items`
(`src/freshservice_api/service.py`, lines 47-63): each whole page
response is appended to the accumulator (items are NOT flattened), then
the loop stops when the nested `service_items` count of the current page
is strictly below `perPage`. -/
def get_all_service_items_loop (perPage : Nat) (backend : Nat → HttpResult) :
    Nat → Nat → List Json → AggResult
  | 0, _, _ => .outOfFuel
  | fuel + 1, page, acc =>
    match backend page with
    | .httpError status errStr details => .httpRaise status errStr details
    | .exc msg => .excRaise msg
    | .ok data =>
      match serviceItemsLen data with
      | none => .raised
      | some n =>
        if n < perPage then .ok (acc ++ [data]) page
        else get_all_service_items_loop perPage backend fuel (page + 1) (acc ++ [data])

/-- Model of `ServiceItemsAPI.get_all_service_items`
(`src/freshservice_api/service.py`, lines 38-63). -/
def ServiceItemsAPI.get_all_service_items (perPage : Nat) (backend : Nat → HttpResult)
    (fuel : Nat) : AggResult :=
  get_all_service_items_loop perPage backend fuel 1 []

/-- Result of one MCP tool invocation: a returned envelope, or the two
model-level markers of `AggResult` (`raised` for a Python exception
whose message this model does not reproduce, `outOfFuel` for fuel
exhaustion of the unbounded loop). -/
inductive ToolResult where
  | out (envelope : Json)
  | raised
  | outOfFuel

/-- Evaluation of a Python list comprehension `[f(x) for x in l]` whose
body may raise: `none` as soon as `f` raises on some element, otherwise
the list of results. -/
def mapMOpt {α β : Type} (f : α → Option β) : List α → Option (List β)
  | [] => some []
  | a :: t =>
    match f a, mapMOpt f t with
    | some b, some bs => some (b :: bs)
    | _, _ => none

/-- Model of the `list_all_departments` MCP tool
(`src/freshservice_mcp/departments.py`, lines 8-71).  Its inline
pagination loop is the same algorithm as
`DepartmentsAPI.get_all_departments` (page size 100, key `departments`,
no per-item processing), wrapped in a `try/except` that reshapes the
outcome into a success or error envelope. -/
def list_all_departments (backend : Nat → HttpResult) (fuel : Nat) : ToolResult :=
  match pagedFetchLoop 100 "departments" (fun j => j) (fun j => j) backend fuel 1 [] with
  | .ok items page =>
      .out (.obj [
        ("success", .bool true),
        ("departments", .arr items),
        ("total_count", .num items.length),
        ("pages_fetched", .num page)])
  | .httpRaise status errStr details =>
      .out (.obj [
        ("error", .str ("Failed to fetch list of departments: " ++ errStr)),
        ("status_code", .num status),
        ("details", details)])
  | .excRaise msg =>
      .out (.obj [("error", .str ("Unexpected error occurred: " ++ msg))])
  | .raised => .raised
  | .outOfFuel => .outOfFuel

/-- Model of the `get_department_id` MCP tool
(`src/freshservice_mcp/departments.py`, lines 148-214): validate the id,
issue one GET (`backend` is its outcome), unwrap
`data.get("department", data)`, and reshape.  A 404 becomes a
`success: false` envelope; any other HTTP error becomes an error
envelope. -/
def get_department_id (department_id : Int) (backend : HttpResult) : ToolResult :=
  if department_id ≤ 0 then
    .out (.obj [("error", .str "Department ID is required and must be a positive integer")])
  else
    match backend with
    | .ok data =>
      match data with
      | .obj fs =>
        match pyGetD fs "department" (.obj fs) with
        | .obj dfs =>
            .out (.obj [
              ("success", .bool true),
              ("message", .str ("Department found: \x27"
                ++ pyStr (pyGetD dfs "name" (.str "Unknown")) ++ "\x27")),
              ("department", .obj [
                ("id", pyGet dfs "id"),
                ("name", pyGet dfs "name"),
                ("description", pyGet dfs "description"),
                ("head_user_id", pyGet dfs "head_user_id"),
                ("prime_user_id", pyGet dfs "prime_user_id"),
                ("domains", pyGetD dfs "domains" (.arr [])),
                ("created_at", pyGet dfs "created_at"),
                ("updated_at", pyGet dfs "updated_at")])])
        | _ => .raised
      | _ => .raised
    | .httpError status errStr details =>
      if status = 404 then
        .out (.obj [
          ("success", .bool false),
          ("message", .str ("No department found with ID: " ++ toString department_id)),
          ("department", .null)])
      else
        .out (.obj [
          ("error", .str ("Failed to retrieve department with ID "
            ++ toString department_id ++ ": " ++ errStr)),
          ("status_code", .num status),
          ("details", details)])
    | .exc msg =>
      .out (.obj [("error", .str ("Unexpected error occurred while retrieving department ID "
        ++ toString department_id ++ ": " ++ msg))])

/-- Model of `_format_requester` (`src/freshservice_mcp/requesters.py`,
lines 13-34).  `none` models the `AttributeError` Python raises when the
element is not a dict. -/
def _format_requester (req : Json) : Option Json :=
  match req with
  | .obj fs => some (.obj [
      ("id", pyGet fs "id"),
      ("first_name", pyGet fs "first_name"),
      ("last_name", pyGet fs "last_name"),
      ("primary_email", pyGet fs "primary_email"),
      ("job_title", pyGet fs "job_title"),
      ("department_ids", pyGetD fs "department_ids" (.arr [])),
      ("work_phone_number", pyGet fs "work_phone_number"),
      ("mobile_phone_number", pyGet fs "mobile_phone_number"),
      ("active", pyGet fs "active"),
      ("created_at", pyGet fs "created_at"),
      ("updated_at", pyGet fs "updated_at")])
  | _ => none

/-- The display string for a requester-name search, built from the valid
(stripped) name parts joined with `and`
(`src/freshservice_mcp/requesters.py`, lines 74-79). -/
def requesterSearchTerm (fn ln : Option String) : String :=
  String.intercalate " and "
    ((if optStrValid fn then ["first name: \x27" ++ pyStrip (fn.getD "") ++ "\x27"] else []) ++
     (if optStrValid ln then ["last name: \x27" ++ pyStrip (ln.getD "") ++ "\x27"] else []))

/-- Model of the `search_requesters_by_name` MCP tool
(`src/freshservice_mcp/requesters.py`, lines 43-131).  The second
component of the result counts the HTTP requests issued: the validation
branch returns before any request is made.  `backend` is the outcome of
the single search request. -/
def McpRequesters.search_requesters_by_name (fn ln : Option String) (backend : HttpResult) :
    ToolResult × Nat :=
  if ¬ optStrValid fn ∧ ¬ optStrValid ln then
    (.out (.obj [("error",
      .str "At least one of first_name or last_name must be provided and cannot be empty")]), 0)
  else
    match backend with
    | .ok data =>
      match data with
      | .obj fs =>
        let reqs := pyGetD fs "requesters" (.arr [])
        if ¬ reqs.truthy then
          (.out (.obj [
            ("success", .bool true),
            ("message", .str ("No requesters found with " ++ requesterSearchTerm fn ln)),
            ("requesters", .arr []),
            ("total_count", .num 0)]), 1)
        else
          match reqs with
          | .arr xs =>
            match mapMOpt _format_requester xs with
            | some formatted =>
              (.out (.obj [
                ("success", .bool true),
                ("message", .str ("Found " ++ toString xs.length
                  ++ " requester(s) matching " ++ requesterSearchTerm fn ln)),
                ("requesters", .arr formatted),
                ("total_count", .num xs.length)]), 1)
            | none => (.raised, 1)
          | _ => (.raised, 1)
      | _ => (.raised, 1)
    | .httpError status errStr details =>
      (.out (.obj [
        ("error", .str ("Failed to search for requesters with "
          ++ requesterSearchTerm fn ln ++ ": " ++ errStr)),
        ("status_code", .num status),
        ("details", details)]), 1)
    | .exc msg =>
      (.out (.obj [("error", .str ("Unexpected error occurred while searching for requesters with "
        ++ requesterSearchTerm fn ln ++ ": " ++ msg))]), 1)

/-- Model of the `get_requesters_by_department_id` MCP tool
(`src/freshservice_mcp/requesters.py`, lines 133-215): validate the id,
then either aggregate all pages through the API-level loop
(`get_all=True`) or fetch page 1 only, and reshape. -/
def McpRequesters.get_requesters_by_department_id (department_id : Int) (getAll : Bool)
    (backend : Nat → HttpResult) (fuel : Nat) : ToolResult :=
  if department_id ≤ 0 then
    .out (.obj [("error", .str "Department ID is required and must be a positive integer")])
  else if getAll then
    match RequestersAPI.get_all_requesters_by_department_id backend fuel with
    | .ok allReqs _ =>
      if allReqs.isEmpty then
        .out (.obj [
          ("success", .bool true),
          ("message", .str ("No requesters found in department ID: " ++ toString department_id)),
          ("requesters", .arr []),
          ("total_count", .num 0),
          ("department_id", .num department_id)])
      else
        match mapMOpt _format_requester allReqs with
        | some formatted =>
          .out (.obj [
            ("success", .bool true),
            ("message", .str ("Found " ++ toString allReqs.length
              ++ " requester(s) in department ID: " ++ toString department_id)),
            ("requesters", .arr formatted),
            ("total_count", .num allReqs.length),
            ("department_id", .num department_id)])
        | none => .raised
    | .httpRaise status errStr details =>
      .out (.obj [
        ("error", .str ("Failed to retrieve requesters for department ID "
          ++ toString department_id ++ ": " ++ errStr)),
        ("status_code", .num status),
        ("details", details)])
    | .excRaise msg =>
      .out (.obj [("error",
        .str ("Unexpected error occurred while retrieving requesters for department ID "
          ++ toString department_id ++ ": " ++ msg))])
    | .raised => .raised
    | .outOfFuel => .outOfFuel
  else
    match backend 1 with
    | .ok data =>
      match data with
      | .obj fs =>
        let reqs := pyGetD fs "requesters" (.arr [])
        if ¬ reqs.truthy then
          .out (.obj [
            ("success", .bool true),
            ("message", .str ("No requesters found in department ID: " ++ toString department_id)),
            ("requesters", .arr []),
            ("total_count", .num 0),
            ("department_id", .num department_id)])
        else
          match reqs with
          | .arr xs =>
            match mapMOpt _format_requester xs with
            | some formatted =>
              .out (.obj [
                ("success", .bool true),
                ("message", .str ("Found " ++ toString xs.length
                  ++ " requester(s) in department ID: " ++ toString department_id
                  ++ " (first page)")),
                ("requesters", .arr formatted),
                ("total_count", .num xs.length),
                ("department_id", .num department_id),
                ("note", .str "This shows the first page only. Set get_all=True to retrieve all requesters.")])
            | none => .raised
          | _ => .raised
      | _ => .raised
    | .httpError status errStr details =>
      .out (.obj [
        ("error", .str ("Failed to retrieve requesters for department ID "
          ++ toString department_id ++ ": " ++ errStr)),
        ("status_code", .num status),
        ("details", details)])
    | .exc msg =>
      .out (.obj [("error",
        .str ("Unexpected error occurred while retrieving requesters for department ID "
          ++ toString department_id ++ ": " ++ msg))])

/-- Model of `_format_article` (`src/freshservice_mcp/solutions.py`,
lines 13-40).  The `url` is synthesized only when the article has a
truthy `id`. -/
def _format_article (domain : String) (article : Json) : Option Json :=
  match article with
  | .obj fs => some (.obj [
      ("id", pyGet fs "id"),
      ("title", pyGet fs "title"),
      ("description", pyGet fs "description"),
      ("article_type", pyGet fs "article_type"),
      ("folder_id", pyGet fs "folder_id"),
      ("category_id", pyGet fs "category_id"),
      ("thumbs_up", pyGetD fs "thumbs_up" (.num 0)),
      ("thumbs_down", pyGetD fs "thumbs_down" (.num 0)),
      ("tags", pyGetD fs "tags" (.arr [])),
      ("keywords", pyGetD fs "keywords" (.arr [])),
      ("updated_at", pyGet fs "updated_at"),
      ("url", if (pyGet fs "id").truthy
        then .str ("https://" ++ domain ++ "/support/solutions/articles/"
          ++ pyStr (pyGet fs "id"))
        else .null)])
  | _ => none

/-- The published-article filter of the solutions facade
(`src/freshservice_mcp/solutions.py`, line 76): keeps articles whose
`status` field equals 2.  Python raises on non-dict elements; theorems
restrict to object elements. -/
def statusPublished (article : Json) : Bool :=
  match article with
  | .obj fs =>
      match fs.lookup "status" with
      | some (.num n) => n == 2
      | _ => false
  | _ => false

/-- Model of the `search_solutions` MCP tool
(`src/freshservice_mcp/solutions.py`, lines 49-118): validate the search
term, aggregate all matching articles, filter to published ones, format
them, and reshape into the success envelope, reporting both the filtered
count (`total_count`) and the unfiltered count (`total_found`). -/
def McpSolutions.search_solutions (md : String → String) (domain searchTerm : String)
    (backend : Nat → HttpResult) (fuel : Nat) : ToolResult :=
  if pyStrip searchTerm = "" then
    .out (.obj [("error", .str "Search term is required and cannot be empty")])
  else
    match SolutionsAPI.search_all_articles md backend fuel with
    | .ok allArticles _ =>
      if allArticles.isEmpty then
        .out (.obj [
          ("success", .bool true),
          ("message", .str ("No articles found for search term: \x27" ++ searchTerm ++ "\x27")),
          ("articles", .arr []),
          ("total_count", .num 0)])
      else
        let published := allArticles.filter statusPublished
        if published.isEmpty then
          .out (.obj [
            ("success", .bool true),
            ("message", .str ("No published articles found for search term: \x27" ++ searchTerm
              ++ "\x27 (found " ++ toString allArticles.length
              ++ " total articles, but none were published)")),
            ("articles", .arr []),
            ("total_count", .num 0),
            ("total_found", .num allArticles.length),
            ("search_term", .str searchTerm)])
        else
          match mapMOpt (_format_article domain) published with
          | some formatted =>
            .out (.obj [
              ("success", .bool true),
              ("message", .str ("Found " ++ toString published.length
                ++ " published articles for search term: \x27" ++ searchTerm
                ++ "\x27 (filtered from " ++ toString allArticles.length ++ " total articles)")),
              ("articles", .arr formatted),
              ("total_count", .num published.length),
              ("total_found", .num allArticles.length),
              ("search_term", .str searchTerm)])
          | none => .raised
    | .httpRaise status errStr details =>
      .out (.obj [
        ("error", .str ("Failed to search for articles with term \x27"
          ++ searchTerm ++ "\x27: " ++ errStr)),
        ("status_code", .num status),
        ("details", details)])
    | .excRaise msg =>
      .out (.obj [("error", .str ("Unexpected error occurred while searching for articles with term \x27"
        ++ searchTerm ++ "\x27: " ++ msg))])
    | .raised => .raised
    | .outOfFuel => .outOfFuel

/-- Model of `_format_service_item` (`src/freshservice_mcp/service.py`,
lines 13-36). -/
def _format_service_item (item : Json) : Option Json :=
  match item with
  | .obj fs => some (.obj [
      ("id", pyGet fs "id"),
      ("display_id", pyGet fs "display_id"),
      ("name", pyGet fs "name"),
      ("description", pyGet fs "description"),
      ("short_description", pyGet fs "short_description"),
      ("cost", pyGet fs "cost"),
      ("quantity", pyGet fs "quantity"),
      ("category_id", pyGet fs "category_id"),
      ("visibility", pyGet fs "visibility"),
      ("deleted", pyGet fs "deleted"),
      ("icon_name", pyGet fs "icon_name")])
  | _ => none

/-- Python `sum(len(page.get("service_items", [])) for page in all_items)`
(`src/freshservice_mcp/service.py`, line 61).  Every page reaching this
sum has already passed `serviceItemsLen` in the loop, so the `getD 0`
default is never the source of the value. -/
def serviceTotalCount (pages : List Json) : Int :=
  (pages.map (fun p => (((serviceItemsLen p).getD 0 : Nat) : Int))).sum

/-- Model of the `list_all_service_items` MCP tool
(`src/freshservice_mcp/service.py`, lines 45-89): validate `per_page`,
aggregate the list of whole page objects, and reshape; `total_count` is
the sum of the nested item counts, not the length of `items`. -/
def McpService.list_all_service_items (perPage : Int) (backend : Nat → HttpResult)
    (fuel : Nat) : ToolResult :=
  if perPage < 1 ∨ 100 < perPage then
    .out (.obj [("error", .str "per_page must be between 1 and 100")])
  else
    match ServiceItemsAPI.get_all_service_items perPage.toNat backend fuel with
    | .ok pages _ =>
      .out (.obj [
        ("success", .bool true),
        ("items", .arr pages),
        ("total_count", .num (serviceTotalCount pages)),
        ("pagination", .obj [
          ("per_page", .num perPage),
          ("total_pages", .num pages.length)])])
    | .httpRaise status errStr details =>
      .out (.obj [
        ("error", .str ("Failed to fetch list of service items: " ++ errStr)),
        ("status_code", .num status),
        ("details", details)])
    | .excRaise msg =>
      .out (.obj [("error", .str ("Unexpected error occurred: " ++ msg))])
    | .raised => .raised
    | .outOfFuel => .outOfFuel

/-- Model of the `search_service_items` MCP tool
(`src/freshservice_mcp/service.py`, lines 91-148): validate the query,
issue one search request, format the resulting items, and reshape. -/
def McpService.search_service_items (query : String) (backend : HttpResult) : ToolResult :=
  if pyStrip query = "" then
    .out (.obj [("error", .str "Query is required and cannot be empty")])
  else
    match backend with
    | .ok data =>
      match data with
      | .obj fs =>
        let items := pyGetD fs "service_items" (.arr [])
        if ¬ items.truthy then
          .out (.obj [
            ("success", .bool true),
            ("message", .str ("No service items found matching query: \x27" ++ query ++ "\x27")),
            ("items", .arr []),
            ("total_count", .num 0)])
        else
          match items with
          | .arr xs =>
            match mapMOpt _format_service_item xs with
            | some formatted =>
              .out (.obj [
                ("success", .bool true),
                ("message", .str ("Found " ++ toString formatted.length ++ " service item(s)")),
                ("items", .arr formatted),
                ("total_count", .num formatted.length)])
            | none => .raised
          | _ => .raised
      | _ => .raised
    | .httpError status errStr details =>
      .out (.obj [
        ("error", .str ("Failed to search service items with query \x27"
          ++ query ++ "\x27: " ++ errStr)),
        ("status_code", .num status),
        ("details", details)])
    | .exc msg =>
      .out (.obj [("error",
        .str ("Unexpected error occurred while searching service items: " ++ msg))])


/-- The items one fetched page contributes to a flattening aggregator
run (`some` exactly when the loop body would not raise): the list under
`key` for a dict body, `[]` for a dict without the key, the
`rawClean`-mapped elements for a bare list, `[]` for a string not
containing `key`. -/
def pageItems (key : String) (rawClean : Json → Json) : Json → Option (List Json)
  | .obj fs =>
      match fs.lookup key with
      | some (.arr xs) => some xs
      | some _ => none
      | none => some []
  | .arr xs =>
      if xs.any (fun j => match j with | .str s => s = key | _ => false) then none
      else some (xs.map rawClean)
  | .str s => if (s.splitOn key).length > 1 then none else some []
  | _ => none

/-- One unfolding of `pagedFetchLoop` on a page whose body does not make
Python raise: extend the accumulator with the page's items and stop or
continue by the short-page test. -/
theorem pagedFetchLoop_step (perPage : Nat) (key : String) (post rawClean : Json → Json)
    (backend : Nat → HttpResult) (fuel page : Nat) (acc : List Json)
    (b : Json) (its : List Json)
    (hb : backend page = .ok b)
    (hits : pageItems key rawClean (post b) = some its) :
    pagedFetchLoop perPage key post rawClean backend (fuel + 1) page acc =
      if its.length < perPage then AggResult.ok (acc ++ its) page
      else pagedFetchLoop perPage key post rawClean backend fuel (page + 1) (acc ++ its) := by
  rw [pagedFetchLoop, hb]
  dsimp only
  cases hpost : post b with
  | obj fs =>
    rw [hpost] at hits
    dsimp only
    cases hlk : fs.lookup key with
    | some v =>
      cases v with
      | arr xs =>
        rw [pageItems, hlk] at hits
        cases hits
        rfl
      | null => rw [pageItems, hlk] at hits; cases hits
      | bool b => rw [pageItems, hlk] at hits; cases hits
      | num n => rw [pageItems, hlk] at hits; cases hits
      | str s => rw [pageItems, hlk] at hits; cases hits
      | obj gs => rw [pageItems, hlk] at hits; cases hits
    | none =>
      rw [pageItems, hlk] at hits
      cases hits
      simp
  | arr xs =>
    rw [hpost] at hits
    rw [pageItems] at hits
    dsimp only
    by_cases hmem : xs.any (fun j => match j with | .str s => s = key | _ => false)
    · rw [if_pos hmem] at hits; cases hits
    · rw [if_neg hmem] at hits
      cases hits
      simp only [Bool.not_eq_true] at hmem
      simp [hmem, List.length_map]
  | str s =>
    rw [hpost] at hits
    rw [pageItems] at hits
    dsimp only
    by_cases hsub : (s.splitOn key).length > 1
    · rw [if_pos hsub] at hits; cases hits
    · rw [if_neg hsub] at hits
      cases hits
      simp [hsub, Nat.lt_irrefl]
  | null => rw [hpost] at hits; exact Option.noConfusion hits
  | bool b => rw [hpost] at hits; exact Option.noConfusion hits
  | num n => rw [hpost] at hits; exact Option.noConfusion hits

/-- The items page `q` contributes to an aggregation run, read off the
backend response (empty for failing pages or raising bodies; theorems
only use it where those cases are excluded by hypotheses). -/
def fetchedItems (key : String) (post rawClean : Json → Json) (backend : Nat → HttpResult)
    (q : Nat) : List Json :=
  match backend q with
  | .ok b => (pageItems key rawClean (post b)).getD []
  | _ => []

/-- Loop invariant of `pagedFetchLoop`: starting from page `s` with
accumulator `acc`, if pages `s..p-1` contribute at least `perPage` items
each and page `p` contributes fewer, the loop stops at page `p` having
appended exactly the items of pages `s..p` in order. -/
theorem pagedFetchLoop_advance (perPage : Nat) (key : String) (post rawClean : Json → Json)
    (backend : Nat → HttpResult) (p : Nat)
    (hok : ∀ q, 1 ≤ q → q ≤ p → ∃ b its, backend q = .ok b ∧
      pageItems key rawClean (post b) = some its)
    (hfull : ∀ q, 1 ≤ q → q < p → perPage ≤ (fetchedItems key post rawClean backend q).length)
    (hshort : (fetchedItems key post rawClean backend p).length < perPage) :
    ∀ fuel s acc, 1 ≤ s → s ≤ p → p - s < fuel →
    pagedFetchLoop perPage key post rawClean backend fuel s acc =
      .ok (acc ++ (List.range' s (p - s + 1)).flatMap
        (fetchedItems key post rawClean backend)) p := by
  intro fuel
  induction fuel with
  | zero => intro s acc _ _ h3; omega
  | succ fuel ih =>
    intro s acc h1 h2 h3
    obtain ⟨b, its, hb, hits⟩ := hok s h1 h2
    have hfs : fetchedItems key post rawClean backend s = its := by
      rw [fetchedItems, hb]
      dsimp only
      rw [hits]
      rfl
    rw [pagedFetchLoop_step perPage key post rawClean backend fuel s acc b its hb hits]
    by_cases hsp : s = p
    · subst hsp
      rw [if_pos (hfs ▸ hshort)]
      have hr : s - s + 1 = 1 := by omega
      rw [hr]
      simp [List.range', hfs]
    · have hlt : s < p := lt_of_le_of_ne h2 hsp
      have hge := hfull s h1 hlt
      rw [hfs] at hge
      rw [if_neg (by omega)]
      rw [ih (s + 1) (acc ++ its) (by omega) (by omega) (by omega)]
      have hrange : List.range' s (p - s + 1) = s :: List.range' (s + 1) (p - (s + 1) + 1) := by
        have hn2 : p - s + 1 = (p - (s + 1) + 1) + 1 := by omega
        rw [hn2, List.range'_succ]
      rw [hrange, List.flatMap_cons, hfs, List.append_assoc]

/-- The error result an aggregation run propagates from a failing page
request.  It depends only on that single response: items accumulated
from earlier pages cannot occur in it. -/
def failAgg : HttpResult → AggResult
  | .httpError status errStr details => .httpRaise status errStr details
  | .exc msg => .excRaise msg
  | .ok _ => .raised

/-- Loop invariant of `pagedFetchLoop` for a failing run: if pages
`s..k` contribute at least `perPage` items each and the request for page
`k+1` fails, the loop returns the propagated error of that response
regardless of the accumulator. -/
theorem pagedFetchLoop_fail (perPage : Nat) (key : String) (post rawClean : Json → Json)
    (backend : Nat → HttpResult) (k : Nat)
    (hok : ∀ q, 1 ≤ q → q ≤ k → ∃ b its, backend q = .ok b ∧
      pageItems key rawClean (post b) = some its ∧ perPage ≤ its.length)
    (hfail : ∀ b, backend (k + 1) ≠ .ok b) :
    ∀ fuel s acc, 1 ≤ s → s ≤ k + 1 → (k + 1) - s < fuel →
    pagedFetchLoop perPage key post rawClean backend fuel s acc = failAgg (backend (k + 1)) := by
  intro fuel
  induction fuel with
  | zero => intro s acc _ _ h3; omega
  | succ fuel ih =>
    intro s acc h1 h2 h3
    by_cases hsk : s = k + 1
    · subst hsk
      rw [pagedFetchLoop]
      cases hbe : backend (k + 1) with
      | ok b => exact absurd hbe (hfail b)
      | httpError status errStr details => rfl
      | exc msg => rfl
    · have hlt : s ≤ k := by omega
      obtain ⟨b, its, hb, hits, hge⟩ := hok s h1 hlt
      rw [pagedFetchLoop_step perPage key post rawClean backend fuel s acc b its hb hits]
      rw [if_neg (by omega)]
      exact ih (s + 1) (acc ++ its) (by omega) (by omega) (by omega)

/-- Loop invariant of `get_all_service_items_loop`: starting from page
`s`, if pages `s..p-1` report at least `perPage` nested items and page
`p` reports fewer, the loop stops at page `p` having appended the whole
response bodies of pages `s..p` in request order. -/
theorem serviceLoop_advance (perPage : Nat) (backend : Nat → HttpResult) (bodies : Nat → Json)
    (p : Nat)
    (hok : ∀ q, 1 ≤ q → q ≤ p → backend q = .ok (bodies q))
    (hlen : ∀ q, 1 ≤ q → q ≤ p → ∃ n, serviceItemsLen (bodies q) = some n ∧
      (q < p → perPage ≤ n) ∧ (q = p → n < perPage)) :
    ∀ fuel s acc, 1 ≤ s → s ≤ p → p - s < fuel →
    get_all_service_items_loop perPage backend fuel s acc =
      .ok (acc ++ (List.range' s (p - s + 1)).map bodies) p := by
  intro fuel
  induction fuel with
  | zero => intro s acc _ _ h3; omega
  | succ fuel ih =>
    intro s acc h1 h2 h3
    obtain ⟨n, hn, hnfull, hnshort⟩ := hlen s h1 h2
    rw [get_all_service_items_loop, hok s h1 h2]
    dsimp only
    rw [hn]
    dsimp only
    by_cases hsp : s = p
    · subst hsp
      rw [if_pos (hnshort rfl)]
      have hr : s - s + 1 = 1 := by omega
      rw [hr]
      simp [List.range']
    · have hlt : s < p := lt_of_le_of_ne h2 hsp
      rw [if_neg (by have := hnfull hlt; omega)]
      rw [ih (s + 1) (acc ++ [bodies s]) (by omega) (by omega) (by omega)]
      have hrange : List.range' s (p - s + 1) = s :: List.range' (s + 1) (p - (s + 1) + 1) := by
        have hn2 : p - s + 1 = (p - (s + 1) + 1) + 1 := by omega
        rw [hn2, List.range'_succ]
      rw [hrange, List.map_cons]
      simp

/-- Loop invariant of `get_all_service_items_loop` for a failing run:
if pages `s..k` report at least `perPage` nested items and the request
for page `k+1` fails, the loop propagates the error of that single
response regardless of the accumulator. -/
theorem serviceLoop_fail (perPage : Nat) (backend : Nat → HttpResult) (k : Nat)
    (hok : ∀ q, 1 ≤ q → q ≤ k → ∃ b n, backend q = .ok b ∧ serviceItemsLen b = some n ∧
      perPage ≤ n)
    (hfail : ∀ b, backend (k + 1) ≠ .ok b) :
    ∀ fuel s acc, 1 ≤ s → s ≤ k + 1 → (k + 1) - s < fuel →
    get_all_service_items_loop perPage backend fuel s acc = failAgg (backend (k + 1)) := by
  intro fuel
  induction fuel with
  | zero => intro s acc _ _ h3; omega
  | succ fuel ih =>
    intro s acc h1 h2 h3
    by_cases hsk : s = k + 1
    · subst hsk
      rw [get_all_service_items_loop]
      cases hbe : backend (k + 1) with
      | ok b => exact absurd hbe (hfail b)
      | httpError status errStr details => rfl
      | exc msg => rfl
    · have hle : s ≤ k := by omega
      obtain ⟨b, n, hb, hn, hge⟩ := hok s h1 hle
      rw [get_all_service_items_loop, hb]
      dsimp only
      rw [hn]
      dsimp only
      rw [if_neg (by omega)]
      exact ih (s + 1) (acc ++ [b]) (by omega) (by omega) (by omega)

/-- Invariant carried by every page object a service-items aggregation
accumulates: each one is an `ok` response body of the backend. -/
theorem serviceLoop_pages_prop (perPage : Nat) (backend : Nat → HttpResult)
    (P : Json → Prop) (hP : ∀ q b, backend q = .ok b → P b) :
    ∀ fuel s acc, (∀ j ∈ acc, P j) → ∀ pages lastp,
    get_all_service_items_loop perPage backend fuel s acc = .ok pages lastp →
    ∀ j ∈ pages, P j := by
  intro fuel
  induction fuel with
  | zero => intro s acc hacc pages lastp h; rw [get_all_service_items_loop] at h; cases h
  | succ fuel ih =>
    intro s acc hacc pages lastp h
    rw [get_all_service_items_loop] at h
    cases hbe : backend s with
    | ok b =>
      rw [hbe] at h
      dsimp only at h
      have hb := hP s b hbe
      have hacc2 : ∀ j ∈ acc ++ [b], P j := by
        intro j hj
        rcases List.mem_append.mp hj with hj | hj
        · exact hacc j hj
        · rcases List.mem_singleton.mp hj with rfl
          exact hb
      cases hn : serviceItemsLen b with
      | none => rw [hn] at h; cases h
      | some n =>
        rw [hn] at h
        dsimp only at h
        by_cases hlt : n < perPage
        · rw [if_pos hlt] at h
          cases h
          exact hacc2
        · rw [if_neg hlt] at h
          exact ih (s + 1) (acc ++ [b]) hacc2 pages lastp h
    | httpError status errStr details => rw [hbe] at h; cases h
    | exc msg => rw [hbe] at h; cases h

/-- Well-formedness of one service page body for counting purposes: the
`service_items` value, when present, is an array (so Python's `len` of
it is the nested array length). -/
def wfServicePage : Json → Bool
  | .obj fs =>
      match fs.lookup "service_items" with
      | none => true
      | some (.arr _) => true
      | some _ => false
  | _ => false

/-- On well-formed pages the loop's counted length is the length of the
nested `service_items` array. -/
theorem serviceItemsLen_eq_of_wf {b : Json} (h : wfServicePage b = true) :
    serviceItemsLen b = some (service_items_of b).length := by
  cases b with
  | obj fs =>
    rw [wfServicePage] at h
    cases hlk : fs.lookup "service_items" with
    | none => rw [serviceItemsLen, service_items_of, hlk]; rfl
    | some v =>
      rw [hlk] at h
      cases v with
      | arr xs => rw [serviceItemsLen, service_items_of, hlk]
      | null => cases h
      | bool b => cases h
      | num n => cases h
      | str s => cases h
      | obj gs => cases h
  | null => cases h
  | bool b => cases h
  | num n => cases h
  | str s => cases h
  | arr xs => cases h

/-- `mapMOpt` preserves length when it succeeds. -/
theorem mapMOpt_length {α β : Type} (f : α → Option β) :
    ∀ (l : List α) (fl : List β), mapMOpt f l = some fl → fl.length = l.length := by
  intro l
  induction l with
  | nil => intro fl h; rw [mapMOpt] at h; cases h; rfl
  | cons a t ih =>
    intro fl h
    rw [mapMOpt] at h
    cases hfa : f a with
    | none => rw [hfa] at h; dsimp only at h; cases h
    | some b =>
      rw [hfa] at h
      cases hft : mapMOpt f t with
      | none => rw [hft] at h; dsimp only at h; cases h
      | some bs =>
        rw [hft] at h
        dsimp only at h
        cases h
        simp [ih bs hft]

/-- `mapMOpt` computes the plain map when the body succeeds everywhere. -/
theorem mapMOpt_eq_map {α β : Type} (f : α → Option β) (g : α → β) :
    ∀ (l : List α), (∀ a ∈ l, f a = some (g a)) → mapMOpt f l = some (l.map g) := by
  intro l
  induction l with
  | nil => intro _; rfl
  | cons a t ih =>
    intro h
    rw [mapMOpt, h a (List.mem_cons_self a t), ih (fun x hx => h x (List.mem_cons_of_mem a hx))]
    rfl

/-- The short-page termination contract of a flattening pagination
aggregator with page size `perPage`: whenever pages `1..p-1` each
contribute at least `perPage` items and page `p` contributes fewer
(with no page making Python raise), the aggregator requests exactly
pages `1..p` and returns their items concatenated in page order and
in-page order, with no deduplication. -/
def ShortPageSpec (perPage : Nat) (key : String) (post rawClean : Json → Json)
    (agg : (Nat → HttpResult) → Nat → AggResult) : Prop :=
  ∀ (backend : Nat → HttpResult) (p : Nat), 1 ≤ p →
    (∀ q, 1 ≤ q → q ≤ p → ∃ b its, backend q = .ok b ∧
      pageItems key rawClean (post b) = some its) →
    (∀ q, 1 ≤ q → q < p → perPage ≤ (fetchedItems key post rawClean backend q).length) →
    (fetchedItems key post rawClean backend p).length < perPage →
    ∀ fuel, p ≤ fuel →
    agg backend fuel =
      .ok ((List.range' 1 p).flatMap (fetchedItems key post rawClean backend)) p

/-- The generic loop satisfies the short-page contract for every page
size at least 1. -/
theorem pagedFetchLoop_shortPageSpec (perPage : Nat) (key : String)
    (post rawClean : Json → Json) :
    ShortPageSpec perPage key post rawClean
      (fun backend fuel => pagedFetchLoop perPage key post rawClean backend fuel 1 []) := by
  intro backend p hp hok hfull hshort fuel hfuel
  have h := pagedFetchLoop_advance perPage key post rawClean backend p hok hfull hshort
    fuel 1 [] (le_refl 1) hp (by omega)
  have hr : p - 1 + 1 = p := by omega
  rw [hr] at h
  simpa using h

/-- C1: For every page size N ≥ 1 and every backend page sequence, if
the endpoint returns k < N items on page p (all earlier pages being
full), the aggregator stops after requesting page p and returns exactly
the items of pages 1..p concatenated in page order then in-page order,
with no deduplication; this holds generically for the loop at any
N ≥ 1 and in particular for `get_all_departments`,
`get_all_requesters_by_department_id` and `search_all_articles`, whose
page size is 100. -/
theorem c1_short_page_aggregation :
    (∀ (perPage : Nat), 1 ≤ perPage → ∀ (key : String) (post rawClean : Json → Json),
      ShortPageSpec perPage key post rawClean
        (fun backend fuel => pagedFetchLoop perPage key post rawClean backend fuel 1 []))
    ∧ ShortPageSpec 100 "departments" (fun j => j) (fun j => j)
        DepartmentsAPI.get_all_departments
    ∧ ShortPageSpec 100 "requesters" (fun j => j) (fun j => j)
        RequestersAPI.get_all_requesters_by_department_id
    ∧ ∀ md, ShortPageSpec 100 "articles" (SolutionsAPI.search_articles md) (cleanIfDict md)
        (SolutionsAPI.search_all_articles md) := by
  refine ⟨fun perPage _ key post rawClean => pagedFetchLoop_shortPageSpec perPage key post rawClean,
    ?_, ?_, fun md => ?_⟩
  · exact pagedFetchLoop_shortPageSpec 100 "departments" (fun j => j) (fun j => j)
  · exact pagedFetchLoop_shortPageSpec 100 "requesters" (fun j => j) (fun j => j)
  · exact pagedFetchLoop_shortPageSpec 100 "articles" (SolutionsAPI.search_articles md)
      (cleanIfDict md)

/-- A concrete two-page backend for exercising C1: page 1 returns 100
departments, page 2 returns one. -/
def c1Backend : Nat → HttpResult := fun q =>
  if q = 1 then .ok (.obj [("departments", .arr (List.replicate 100 (.num 1)))])
  else .ok (.obj [("departments", .arr [.num 2])])

theorem c1_short_page_aggregation_witness :
    DepartmentsAPI.get_all_departments c1Backend 2 =
      .ok ((List.range' 1 2).flatMap
        (fetchedItems "departments" (fun j => j) (fun j => j) c1Backend)) 2 := by
  apply c1_short_page_aggregation.2.1 c1Backend 2 (by norm_num)
  · intro q h1 h2
    interval_cases q
    · exact ⟨_, _, rfl, rfl⟩
    · exact ⟨_, _, rfl, rfl⟩
  · intro q h1 h2
    interval_cases q
    simp [fetchedItems, c1Backend, pageItems]
  · simp [fetchedItems, c1Backend, pageItems]
  · exact le_refl 2

/-- Shared specification of `get_all_service_items`: under the
short-page hypotheses it returns the whole page bodies of pages `1..p`
and stops at page `p`. -/
theorem get_all_service_items_spec (perPage : Nat) (backend : Nat → HttpResult)
    (bodies : Nat → Json) (p : Nat) (hp : 1 ≤ p)
    (hok : ∀ q, 1 ≤ q → q ≤ p → backend q = .ok (bodies q))
    (hlen : ∀ q, 1 ≤ q → q ≤ p → ∃ n, serviceItemsLen (bodies q) = some n ∧
      (q < p → perPage ≤ n) ∧ (q = p → n < perPage)) :
    ∀ fuel, p ≤ fuel →
    ServiceItemsAPI.get_all_service_items perPage backend fuel =
      .ok ((List.range' 1 p).map bodies) p := by
  intro fuel hfuel
  have h := serviceLoop_advance perPage backend bodies p hok hlen fuel 1 []
    (le_refl 1) hp (by omega)
  have hr : p - 1 + 1 = p := by omega
  rw [hr] at h
  rw [ServiceItemsAPI.get_all_service_items, h]
  simp

/-- C2: `get_all_service_items` does not flatten: whenever pages
`1..p-1` report at least `perPage` nested `service_items` (the count of
`data.get("service_items", [])`, zero when the key is absent) and page
`p` reports fewer, it requests exactly pages `1..p` and returns the
whole page-response bodies, one per page requested, in request order;
it terminates exactly at the first page whose nested count is strictly
below `perPage`. -/
theorem c2_service_items_pages (perPage : Nat) (backend : Nat → HttpResult)
    (bodies : Nat → Json) (p : Nat) (hp : 1 ≤ p)
    (hok : ∀ q, 1 ≤ q → q ≤ p → backend q = .ok (bodies q))
    (hlen : ∀ q, 1 ≤ q → q ≤ p → ∃ n, serviceItemsLen (bodies q) = some n ∧
      (q < p → perPage ≤ n) ∧ (q = p → n < perPage)) :
    ∀ fuel, p ≤ fuel →
    ServiceItemsAPI.get_all_service_items perPage backend fuel =
      .ok ((List.range' 1 p).map bodies) p :=
  get_all_service_items_spec perPage backend bodies p hp hok hlen

/-- A concrete two-page service backend for exercising C2: page 1 has
two nested items, page 2 has one. -/
def c2Bodies : Nat → Json := fun q =>
  if q = 1 then .obj [("service_items", .arr [.num 1, .num 2])]
  else .obj [("service_items", .arr [.num 3])]

theorem c2_service_items_pages_witness :
    ServiceItemsAPI.get_all_service_items 2 (fun q => .ok (c2Bodies q)) 2 =
      .ok ((List.range' 1 2).map c2Bodies) 2 := by
  apply c2_service_items_pages 2 (fun q => .ok (c2Bodies q)) c2Bodies 2 (by norm_num)
  · intro q _ _; rfl
  · intro q h1 h2
    interval_cases q
    · exact ⟨2, rfl, fun _ => le_refl 2, fun h => absurd h (by norm_num)⟩
    · exact ⟨1, rfl, fun h => absurd h (by norm_num), fun _ => by norm_num⟩
  · exact le_refl 2

/-- C3: with `per_page = 100`, when pages `1..n` each report exactly
100 nested service items and page `n+1` reports 0, the aggregator
requests exactly `n + 1` pages — the `n` full pages plus one extra
request for the empty page — and then terminates. -/
theorem c3_one_extra_request (n : Nat) (backend : Nat → HttpResult) (bodies : Nat → Json)
    (hok : ∀ q, 1 ≤ q → q ≤ n + 1 → backend q = .ok (bodies q))
    (hfull : ∀ q, 1 ≤ q → q ≤ n → serviceItemsLen (bodies q) = some 100)
    (hempty : serviceItemsLen (bodies (n + 1)) = some 0) :
    ∀ fuel, n + 1 ≤ fuel →
    ServiceItemsAPI.get_all_service_items 100 backend fuel =
      .ok ((List.range' 1 (n + 1)).map bodies) (n + 1) := by
  intro fuel hfuel
  apply get_all_service_items_spec 100 backend bodies (n + 1) (by omega) hok _ fuel hfuel
  intro q h1 h2
  by_cases hq : q = n + 1
  · subst hq
    exact ⟨0, hempty, fun h => absurd rfl (Nat.ne_of_lt h), fun _ => by norm_num⟩
  · have hle : q ≤ n := by omega
    exact ⟨100, hfull q h1 hle, fun _ => le_refl 100, fun h => absurd h hq⟩

/-- A concrete backend for exercising C3 with one full page of exactly
100 items followed by an empty page. -/
def c3Bodies : Nat → Json := fun q =>
  if q = 1 then .obj [("service_items", .arr (List.replicate 100 .null))]
  else .obj [("service_items", .arr [])]

theorem c3_one_extra_request_witness :
    ServiceItemsAPI.get_all_service_items 100 (fun q => .ok (c3Bodies q)) 2 =
      .ok ((List.range' 1 2).map c3Bodies) 2 := by
  apply c3_one_extra_request 1 (fun q => .ok (c3Bodies q)) c3Bodies
  · intro q _ _; rfl
  · intro q h1 h2
    interval_cases q
    simp [c3Bodies, serviceItemsLen]
  · rfl
  · exact le_refl 2

/-- C4: for every non-empty aggregated article collection (of article
objects), the `search_solutions` facade returns in `articles` exactly
the formatted articles whose `status` equals 2, in their original
order, with `total_count` the number of published articles and
`total_found` the size of the whole aggregated collection. -/
theorem c4_published_filter (md : String → String) (domain searchTerm : String)
    (backend : Nat → HttpResult) (fuel : Nat) (allArticles : List Json) (p : Nat)
    (hterm : ¬ pyStrip searchTerm = "")
    (hagg : SolutionsAPI.search_all_articles md backend fuel = .ok allArticles p)
    (hne : allArticles ≠ [])
    (hobj : ∀ a ∈ allArticles, ∃ fs, a = Json.obj fs) :
    ∃ env, McpSolutions.search_solutions md domain searchTerm backend fuel = .out env ∧
      env.objLookup "articles" =
        some (.arr ((allArticles.filter statusPublished).map
          (fun a => (_format_article domain a).getD .null))) ∧
      env.objLookup "total_count" =
        some (.num ((allArticles.filter statusPublished).length : Int)) ∧
      env.objLookup "total_found" = some (.num (allArticles.length : Int)) := by
  have hie : allArticles.isEmpty = false := by
    cases allArticles with
    | nil => exact absurd rfl hne
    | cons a t => rfl
  rw [McpSolutions.search_solutions, if_neg hterm, hagg]
  dsimp only
  rw [if_neg (by simp [hie])]
  by_cases hpub : (allArticles.filter statusPublished).isEmpty = true
  · have hpe : allArticles.filter statusPublished = [] := List.isEmpty_iff.mp hpub
    rw [if_pos hpub]
    refine ⟨_, rfl, ?_, ?_, ?_⟩
    · rw [hpe]; rfl
    · rw [hpe]; rfl
    · rfl
  · have hmap : mapMOpt (_format_article domain) (allArticles.filter statusPublished) =
        some ((allArticles.filter statusPublished).map
          (fun a => (_format_article domain a).getD .null)) := by
      apply mapMOpt_eq_map
      intro a ha
      obtain ⟨fs, rfl⟩ := hobj a (List.mem_of_mem_filter ha)
      rfl
    rw [if_neg hpub, hmap]
    exact ⟨_, rfl, rfl, rfl, rfl⟩

/-- A concrete three-article search result for exercising C4: two
published articles (status 2) and one unpublished (status 1). -/
def c4Article1 : Json := .obj [("id", .num 1), ("status", .num 2)]

def c4Article2 : Json := .obj [("id", .num 2), ("status", .num 1)]

def c4Article3 : Json := .obj [("id", .num 3), ("status", .num 2)]

def c4Backend : Nat → HttpResult := fun _ =>
  .ok (.obj [("articles", .arr [c4Article1, c4Article2, c4Article3])])

theorem c4_published_filter_witness :
    ∃ env, McpSolutions.search_solutions (fun s => s) "example.freshservice.com" "printer"
        c4Backend 1 = .out env ∧
      env.objLookup "articles" =
        some (.arr (([c4Article1, c4Article2, c4Article3].filter statusPublished).map
          (fun a => (_format_article "example.freshservice.com" a).getD .null))) ∧
      env.objLookup "total_count" =
        some (.num (([c4Article1, c4Article2, c4Article3].filter statusPublished).length : Int)) ∧
      env.objLookup "total_found" =
        some (.num (([c4Article1, c4Article2, c4Article3] : List Json).length : Int)) :=
  c4_published_filter (fun s => s) "example.freshservice.com" "printer" c4Backend 1
    [c4Article1, c4Article2, c4Article3] 1
    (by decide) rfl (by simp)
    (by
      intro a ha
      simp only [List.mem_cons, List.not_mem_nil, or_false] at ha
      rcases ha with rfl | rfl | rfl
      · exact ⟨_, rfl⟩
      · exact ⟨_, rfl⟩
      · exact ⟨_, rfl⟩)

/-- C5: for every positive department id, a backend 404 on the id
lookup makes `get_department_id` return the not-found envelope
`success: false / message / department: null` — its keys are exactly
those three, so it carries no `error`, `status_code` or `details`
field. -/
theorem c5_department_404 (department_id : Int) (h : 0 < department_id)
    (errStr : String) (details : Json) :
    get_department_id department_id (.httpError 404 errStr details) =
      .out (.obj [
        ("success", .bool false),
        ("message", .str ("No department found with ID: " ++ toString department_id)),
        ("department", .null)]) ∧
    ∀ env, get_department_id department_id (.httpError 404 errStr details) = .out env →
      env.objLookup "error" = none ∧ env.objLookup "status_code" = none ∧
      env.objLookup "details" = none := by
  have hmain : get_department_id department_id (.httpError 404 errStr details) =
      .out (.obj [
        ("success", .bool false),
        ("message", .str ("No department found with ID: " ++ toString department_id)),
        ("department", .null)]) := by
    rw [get_department_id, if_neg (by omega)]
    rw [if_pos rfl]
  refine ⟨hmain, ?_⟩
  intro env henv
  rw [hmain] at henv
  cases henv
  exact ⟨rfl, rfl, rfl⟩

theorem c5_department_404_witness :
    get_department_id 9999 (.httpError 404 "Client error" .null) =
      .out (.obj [
        ("success", .bool false),
        ("message", .str "No department found with ID: 9999"),
        ("department", .null)]) ∧
    (Json.obj [
        ("success", .bool false),
        ("message", .str "No department found with ID: 9999"),
        ("department", .null)]).objLookup "error" = none := by
  have h := c5_department_404 9999 (by norm_num) "Client error" .null
  constructor
  · rw [h.1]; rfl
  · rfl

/-- C6: when both name arguments are absent, empty, or whitespace-only,
`search_requesters_by_name` returns the validation error envelope and
issues no HTTP request (request count 0, result independent of the
backend response). -/
theorem c6_requester_search_validation (fn ln : Option String) (backend : HttpResult)
    (hfn : optStrValid fn = false) (hln : optStrValid ln = false) :
    McpRequesters.search_requesters_by_name fn ln backend =
      (.out (.obj [("error",
        .str "At least one of first_name or last_name must be provided and cannot be empty")]),
       0) := by
  rw [McpRequesters.search_requesters_by_name.eq_def,
    if_pos ⟨by simp [hfn], by simp [hln]⟩]

theorem c6_requester_search_validation_witness :
    optStrValid (some "") = false ∧
    McpRequesters.search_requesters_by_name (some "") (some "") (.ok .null) =
      (.out (.obj [("error",
        .str "At least one of first_name or last_name must be provided and cannot be empty")]),
       0) :=
  ⟨rfl, c6_requester_search_validation (some "") (some "") (.ok .null) rfl rfl⟩

/-- The error envelope `list_all_departments` builds from a failing
page request.  It is a function of that single response only, so no
accumulated item can occur in it. -/
def deptFailEnvelope : HttpResult → Json
  | .httpError status errStr details => .obj [
      ("error", .str ("Failed to fetch list of departments: " ++ errStr)),
      ("status_code", .num status),
      ("details", details)]
  | .exc msg => .obj [("error", .str ("Unexpected error occurred: " ++ msg))]
  | .ok _ => .null

/-- The error envelope `list_all_service_items` builds from a failing
page request; again a function of that single response only. -/
def serviceFailEnvelope : HttpResult → Json
  | .httpError status errStr details => .obj [
      ("error", .str ("Failed to fetch list of service items: " ++ errStr)),
      ("status_code", .num status),
      ("details", details)]
  | .exc msg => .obj [("error", .str ("Unexpected error occurred: " ++ msg))]
  | .ok _ => .null

/-- C7: when pages `1..k` succeed (and are full, so the loop continues)
and the request for page `k+1` fails with a non-2xx status or any other
exception, the aggregation tools return an error envelope computed from
that failing response alone — the items accumulated from the earlier
pages are discarded and cannot appear in the returned value. -/
theorem c7_failure_discards_partial :
    (∀ (backend : Nat → HttpResult) (k : Nat), 1 ≤ k →
      (∀ q, 1 ≤ q → q ≤ k → ∃ b its, backend q = .ok b ∧
        pageItems "departments" (fun j => j) b = some its ∧ 100 ≤ its.length) →
      (∀ b, backend (k + 1) ≠ .ok b) →
      ∀ fuel, k + 1 ≤ fuel →
      list_all_departments backend fuel = .out (deptFailEnvelope (backend (k + 1))))
    ∧ (∀ (perPage : Int) (backend : Nat → HttpResult) (k : Nat), 1 ≤ k →
      1 ≤ perPage → perPage ≤ 100 →
      (∀ q, 1 ≤ q → q ≤ k → ∃ b n, backend q = .ok b ∧ serviceItemsLen b = some n ∧
        perPage.toNat ≤ n) →
      (∀ b, backend (k + 1) ≠ .ok b) →
      ∀ fuel, k + 1 ≤ fuel →
      McpService.list_all_service_items perPage backend fuel =
        .out (serviceFailEnvelope (backend (k + 1)))) := by
  constructor
  · intro backend k hk hok hfail fuel hfuel
    have hl := pagedFetchLoop_fail 100 "departments" (fun j => j) (fun j => j) backend k hok
      hfail fuel 1 [] (le_refl 1) (by omega) (by omega)
    rw [list_all_departments, hl]
    cases hbe : backend (k + 1) with
    | ok b => exact absurd hbe (hfail b)
    | httpError status errStr details => rfl
    | exc msg => rfl
  · intro perPage backend k hk h1 h2 hok hfail fuel hfuel
    have hl := serviceLoop_fail perPage.toNat backend k hok hfail fuel 1 []
      (le_refl 1) (by omega) (by omega)
    rw [McpService.list_all_service_items, if_neg (by omega),
      ServiceItemsAPI.get_all_service_items, hl]
    cases hbe : backend (k + 1) with
    | ok b => exact absurd hbe (hfail b)
    | httpError status errStr details => rfl
    | exc msg => rfl

/-- A concrete backend for exercising C7: page 1 full, page 2 failing
with HTTP 500. -/
def c7Backend : Nat → HttpResult := fun q =>
  if q = 1 then .ok (.obj [("departments", .arr (List.replicate 100 (.num 1)))])
  else .httpError 500 "Server error" .null

theorem c7_failure_discards_partial_witness :
    list_all_departments c7Backend 2 = .out (deptFailEnvelope (c7Backend 2)) := by
  apply c7_failure_discards_partial.1 c7Backend 1 (le_refl 1)
  · intro q h1 h2
    interval_cases q
    exact ⟨_, _, rfl, rfl, by simp⟩
  · intro b h
    exact HttpResult.noConfusion h
  · exact le_refl 2

/-- Mapping mode always yields an object whose entries come from
`cleanFields` (both for the empty and non-empty dict). -/
theorem clean_html_content_obj (md : String → String) (fs : List (String × Json)) :
    clean_html_content md (.obj fs) = .obj (cleanFields md fs) := by
  cases fs with
  | nil => rfl
  | cons kv rest => rw [clean_html_content, if_neg (by simp)]

/-- `cleanFields` preserves the key sequence of the dict. -/
theorem cleanFields_keys (md : String → String) :
    ∀ fs : List (String × Json), (cleanFields md fs).map Prod.fst = fs.map Prod.fst := by
  intro fs
  induction fs with
  | nil => rfl
  | cons kv rest ih =>
    obtain ⟨k', v⟩ := kv
    rw [cleanFields]
    by_cases hg : htmlFields.contains k' && v.truthy
    · rw [if_pos hg]
      simp only [List.map_cons, ih]
    · rw [if_neg hg]
      simp only [List.map_cons, ih]

/-- `cleanFields` leaves the binding of every key outside the three
HTML fields byte-identical. -/
theorem cleanFields_lookup (md : String → String) (k : String)
    (hk : htmlFields.contains k = false) :
    ∀ fs : List (String × Json), (cleanFields md fs).lookup k = fs.lookup k := by
  intro fs
  induction fs with
  | nil => rfl
  | cons kv rest ih =>
    obtain ⟨k', v⟩ := kv
    rw [cleanFields]
    by_cases hg : htmlFields.contains k' && v.truthy
    · rw [if_pos hg]
      by_cases hkk : k == k'
      · have hkeq : k = k' := by simpa using hkk
        subst hkeq
        rw [Bool.and_eq_true] at hg
        rw [hg.1] at hk
        cases hk
      · have hkk2 : (k == k') = false := by simpa using hkk
        simp [List.lookup, hkk2, ih]
    · rw [if_neg hg]
      by_cases hkk : k == k'
      · have hkk2 : (k == k') = true := by simpa using hkk
        simp [List.lookup, hkk2]
      · have hkk2 : (k == k') = false := by simpa using hkk
        simp [List.lookup, hkk2, ih]

/-- C9: `clean_html_content("") = ""`, and mapping mode returns an
object with the same keys in the same order in which every key outside
`description`, `title`, `summary` is bound to a value byte-identical to
the input's. -/
theorem c9_clean_frame (md : String → String) (fs : List (String × Json)) (k : String)
    (hk : htmlFields.contains k = false) :
    clean_html_content md (.str "") = .str "" ∧
    ∃ fs2, clean_html_content md (.obj fs) = .obj fs2 ∧
      fs2.map Prod.fst = fs.map Prod.fst ∧
      fs2.lookup k = fs.lookup k := by
  refine ⟨rfl, cleanFields md fs, clean_html_content_obj md fs, cleanFields_keys md fs, ?_⟩
  exact cleanFields_lookup md k hk fs

theorem c9_clean_frame_witness :
    clean_html_content (fun s => s) (.str "") = .str "" ∧
    ∃ fs2, clean_html_content (fun s => s)
        (.obj [("id", .num 7), ("description", .str "<p>x</p>")]) = .obj fs2 ∧
      fs2.map Prod.fst =
        ([("id", Json.num 7), ("description", Json.str "<p>x</p>")]).map Prod.fst ∧
      fs2.lookup "id" = ([("id", Json.num 7), ("description", Json.str "<p>x</p>")]).lookup "id" :=
  c9_clean_frame (fun s => s) [("id", .num 7), ("description", .str "<p>x</p>")] "id" rfl

/-- Every success envelope of `list_all_departments` reports
`total_count` equal to the length of its `departments` payload. -/
theorem list_all_departments_count (backend : Nat → HttpResult) (fuel : Nat) (env : Json)
    (h : list_all_departments backend fuel = .out env)
    (hsucc : env.objLookup "success" = some (.bool true)) :
    ∃ items : List Json, env.objLookup "departments" = some (.arr items) ∧
      env.objLookup "total_count" = some (.num (items.length : Int)) := by
  rw [list_all_departments] at h
  cases hl : pagedFetchLoop 100 "departments" (fun j => j) (fun j => j) backend fuel 1 [] with
  | ok items page =>
    rw [hl] at h
    injection h with h1
    subst h1
    exact ⟨items, rfl, rfl⟩
  | httpRaise status errStr details =>
    rw [hl] at h
    injection h with h1
    subst h1
    exact absurd hsucc (by intro hx; exact Option.noConfusion hx)
  | excRaise msg =>
    rw [hl] at h
    injection h with h1
    subst h1
    exact absurd hsucc (by intro hx; exact Option.noConfusion hx)
  | raised => rw [hl] at h; cases h
  | outOfFuel => rw [hl] at h; cases h

/-- Pointwise sum identity for well-formed service pages. -/
theorem serviceTotalCount_eq (pages : List Json)
    (hwf : ∀ j ∈ pages, wfServicePage j = true) :
    serviceTotalCount pages =
      (pages.map (fun p => ((service_items_of p).length : Int))).sum := by
  induction pages with
  | nil => rfl
  | cons p rest ih =>
    have hp := hwf p (List.mem_cons_self p rest)
    have hrest : ∀ j ∈ rest, wfServicePage j = true :=
      fun j hj => hwf j (List.mem_cons_of_mem p hj)
    rw [serviceTotalCount, List.map_cons, List.sum_cons, List.map_cons, List.sum_cons]
    rw [serviceItemsLen_eq_of_wf hp]
    rw [serviceTotalCount] at ih
    rw [ih hrest]
    rfl

/-- Every success envelope of `list_all_service_items` (over a backend
whose bodies are well-formed pages) holds whole page objects under
`items` and reports `total_count` equal to the sum of the nested
`service_items` array lengths. -/
theorem list_all_service_items_count (perPage : Int) (backend : Nat → HttpResult)
    (fuel : Nat) (env : Json)
    (hwf : ∀ q b, backend q = .ok b → wfServicePage b = true)
    (h : McpService.list_all_service_items perPage backend fuel = .out env)
    (hsucc : env.objLookup "success" = some (.bool true)) :
    ∃ pages : List Json, env.objLookup "items" = some (.arr pages) ∧
      env.objLookup "total_count" =
        some (.num ((pages.map (fun p => ((service_items_of p).length : Int))).sum)) := by
  rw [McpService.list_all_service_items] at h
  by_cases hv : perPage < 1 ∨ 100 < perPage
  · rw [if_pos hv] at h
    injection h with h1
    subst h1
    exact absurd hsucc (by intro hx; exact Option.noConfusion hx)
  · rw [if_neg hv] at h
    cases hl : ServiceItemsAPI.get_all_service_items perPage.toNat backend fuel with
    | ok pages page =>
      rw [hl] at h
      injection h with h1
      subst h1
      refine ⟨pages, rfl, ?_⟩
      have hpwf : ∀ j ∈ pages, wfServicePage j = true := by
        apply serviceLoop_pages_prop perPage.toNat backend (fun j => wfServicePage j = true)
          (fun q b hb => hwf q b hb) fuel 1 [] (by intro j hj; cases hj) pages page
        exact hl
      rw [show Json.objLookup (Json.obj [
          ("success", Json.bool true),
          ("items", Json.arr pages),
          ("total_count", Json.num (serviceTotalCount pages)),
          ("pagination", Json.obj [
            ("per_page", Json.num perPage),
            ("total_pages", Json.num pages.length)])]) "total_count"
        = some (Json.num (serviceTotalCount pages)) from rfl]
      rw [serviceTotalCount_eq pages hpwf]
    | httpRaise status errStr details =>
      rw [hl] at h
      injection h with h1
      subst h1
      exact absurd hsucc (by intro hx; exact Option.noConfusion hx)
    | excRaise msg =>
      rw [hl] at h
      injection h with h1
      subst h1
      exact absurd hsucc (by intro hx; exact Option.noConfusion hx)
    | raised => rw [hl] at h; cases h
    | outOfFuel => rw [hl] at h; cases h

/-- Every success envelope of `search_requesters_by_name` reports
`total_count` equal to the length of its `requesters` payload. -/
theorem search_requesters_by_name_count (fn ln : Option String) (backend : HttpResult)
    (env : Json) (cnt : Nat)
    (h : McpRequesters.search_requesters_by_name fn ln backend = (.out env, cnt))
    (hsucc : env.objLookup "success" = some (.bool true)) :
    ∃ rs : List Json, env.objLookup "requesters" = some (.arr rs) ∧
      env.objLookup "total_count" = some (.num (rs.length : Int)) := by
  rw [McpRequesters.search_requesters_by_name.eq_def] at h
  by_cases hval : ¬ optStrValid fn = true ∧ ¬ optStrValid ln = true
  · rw [if_pos hval] at h
    injection h with h1 _
    injection h1 with h1
    subst h1
    exact absurd hsucc (by intro hx; exact Option.noConfusion hx)
  · rw [if_neg hval] at h
    cases backend with
    | ok data =>
      cases data with
      | obj fs =>
        dsimp only at h
        by_cases ht : (pyGetD fs "requesters" (.arr [])).truthy = true
        · rw [if_neg (not_not_intro ht)] at h
          cases hr : pyGetD fs "requesters" (.arr []) with
          | arr xs =>
            rw [hr] at h
            dsimp only at h
            cases hm : mapMOpt _format_requester xs with
            | some formatted =>
              rw [hm] at h
              injection h with h1 _
              injection h1 with h1
              subst h1
              have hlen := mapMOpt_length _format_requester xs formatted hm
              exact ⟨formatted, rfl, by rw [hlen]; rfl⟩
            | none =>
              rw [hm] at h
              injection h with h1 _
              cases h1
          | null => rw [hr] at h; dsimp only at h; injection h with h1 _; cases h1
          | bool b => rw [hr] at h; dsimp only at h; injection h with h1 _; cases h1
          | num n => rw [hr] at h; dsimp only at h; injection h with h1 _; cases h1
          | str s => rw [hr] at h; dsimp only at h; injection h with h1 _; cases h1
          | obj gs => rw [hr] at h; dsimp only at h; injection h with h1 _; cases h1
        · rw [if_pos ht] at h
          injection h with h1 _
          injection h1 with h1
          subst h1
          exact ⟨[], rfl, rfl⟩
      | null => injection h with h1 _; cases h1
      | bool b => injection h with h1 _; cases h1
      | num n => injection h with h1 _; cases h1
      | str s => injection h with h1 _; cases h1
      | arr xs => injection h with h1 _; cases h1
    | httpError status errStr details =>
      injection h with h1 _
      injection h1 with h1
      subst h1
      exact absurd hsucc (by intro hx; exact Option.noConfusion hx)
    | exc msg =>
      injection h with h1 _
      injection h1 with h1
      subst h1
      exact absurd hsucc (by intro hx; exact Option.noConfusion hx)

/-- Every success envelope of `get_requesters_by_department_id` (either
mode) reports `total_count` equal to the length of its `requesters`
payload. -/
theorem get_requesters_by_department_id_count (did : Int) (getAll : Bool)
    (backend : Nat → HttpResult) (fuel : Nat) (env : Json)
    (h : McpRequesters.get_requesters_by_department_id did getAll backend fuel = .out env)
    (hsucc : env.objLookup "success" = some (.bool true)) :
    ∃ rs : List Json, env.objLookup "requesters" = some (.arr rs) ∧
      env.objLookup "total_count" = some (.num (rs.length : Int)) := by
  rw [McpRequesters.get_requesters_by_department_id] at h
  by_cases hid : did ≤ 0
  · rw [if_pos hid] at h
    injection h with h1
    subst h1
    exact absurd hsucc (by intro hx; exact Option.noConfusion hx)
  · rw [if_neg hid] at h
    cases getAll with
    | true =>
      rw [if_pos rfl] at h
      cases hl : RequestersAPI.get_all_requesters_by_department_id backend fuel with
      | ok allReqs page =>
        rw [hl] at h
        dsimp only at h
        by_cases he : allReqs.isEmpty = true
        · rw [if_pos he] at h
          injection h with h1
          subst h1
          exact ⟨[], rfl, rfl⟩
        · rw [if_neg he] at h
          cases hm : mapMOpt _format_requester allReqs with
          | some formatted =>
            rw [hm] at h
            injection h with h1
            subst h1
            have hlen := mapMOpt_length _format_requester allReqs formatted hm
            exact ⟨formatted, rfl, by rw [hlen]; rfl⟩
          | none => rw [hm] at h; cases h
      | httpRaise status errStr details =>
        rw [hl] at h
        dsimp only at h
        injection h with h1
        subst h1
        exact absurd hsucc (by intro hx; exact Option.noConfusion hx)
      | excRaise msg =>
        rw [hl] at h
        dsimp only at h
        injection h with h1
        subst h1
        exact absurd hsucc (by intro hx; exact Option.noConfusion hx)
      | raised => rw [hl] at h; dsimp only at h; cases h
      | outOfFuel => rw [hl] at h; dsimp only at h; cases h
    | false =>
      rw [if_neg (by simp)] at h
      cases hb1 : backend 1 with
      | ok data =>
        rw [hb1] at h
        dsimp only at h
        cases hd : data with
        | obj fs =>
          rw [hd] at h
          dsimp only at h
          by_cases ht : (pyGetD fs "requesters" (.arr [])).truthy = true
          · rw [if_neg (not_not_intro ht)] at h
            cases hr : pyGetD fs "requesters" (.arr []) with
            | arr xs =>
              rw [hr] at h
              dsimp only at h
              cases hm : mapMOpt _format_requester xs with
              | some formatted =>
                rw [hm] at h
                injection h with h1
                subst h1
                have hlen := mapMOpt_length _format_requester xs formatted hm
                exact ⟨formatted, rfl, by rw [hlen]; rfl⟩
              | none => rw [hm] at h; cases h
            | null => rw [hr] at h; dsimp only at h; cases h
            | bool b => rw [hr] at h; dsimp only at h; cases h
            | num n => rw [hr] at h; dsimp only at h; cases h
            | str s => rw [hr] at h; dsimp only at h; cases h
            | obj gs => rw [hr] at h; dsimp only at h; cases h
          · rw [if_pos ht] at h
            injection h with h1
            subst h1
            exact ⟨[], rfl, rfl⟩
        | null => rw [hd] at h; dsimp only at h; cases h
        | bool b => rw [hd] at h; dsimp only at h; cases h
        | num n => rw [hd] at h; dsimp only at h; cases h
        | str s => rw [hd] at h; dsimp only at h; cases h
        | arr xs => rw [hd] at h; dsimp only at h; cases h
      | httpError status errStr details =>
        rw [hb1] at h
        dsimp only at h
        injection h with h1
        subst h1
        exact absurd hsucc (by intro hx; exact Option.noConfusion hx)
      | exc msg =>
        rw [hb1] at h
        dsimp only at h
        injection h with h1
        subst h1
        exact absurd hsucc (by intro hx; exact Option.noConfusion hx)

/-- Every success envelope of `search_solutions` reports `total_count`
equal to the length of its `articles` payload. -/
theorem search_solutions_count (md : String → String) (domain searchTerm : String)
    (backend : Nat → HttpResult) (fuel : Nat) (env : Json)
    (h : McpSolutions.search_solutions md domain searchTerm backend fuel = .out env)
    (hsucc : env.objLookup "success" = some (.bool true)) :
    ∃ arts : List Json, env.objLookup "articles" = some (.arr arts) ∧
      env.objLookup "total_count" = some (.num (arts.length : Int)) := by
  rw [McpSolutions.search_solutions] at h
  by_cases hterm : pyStrip searchTerm = ""
  · rw [if_pos hterm] at h
    injection h with h1
    subst h1
    exact absurd hsucc (by intro hx; exact Option.noConfusion hx)
  · rw [if_neg hterm] at h
    cases hl : SolutionsAPI.search_all_articles md backend fuel with
    | ok allArticles page =>
      rw [hl] at h
      dsimp only at h
      by_cases he : allArticles.isEmpty = true
      · rw [if_pos he] at h
        injection h with h1
        subst h1
        exact ⟨[], rfl, rfl⟩
      · rw [if_neg he] at h
        by_cases hp : (allArticles.filter statusPublished).isEmpty = true
        · rw [if_pos hp] at h
          injection h with h1
          subst h1
          exact ⟨[], rfl, rfl⟩
        · rw [if_neg hp] at h
          cases hm : mapMOpt (_format_article domain) (allArticles.filter statusPublished) with
          | some formatted =>
            rw [hm] at h
            injection h with h1
            subst h1
            have hlen := mapMOpt_length (_format_article domain)
              (allArticles.filter statusPublished) formatted hm
            exact ⟨formatted, rfl, by rw [hlen]; rfl⟩
          | none => rw [hm] at h; cases h
    | httpRaise status errStr details =>
      rw [hl] at h
      dsimp only at h
      injection h with h1
      subst h1
      exact absurd hsucc (by intro hx; exact Option.noConfusion hx)
    | excRaise msg =>
      rw [hl] at h
      dsimp only at h
      injection h with h1
      subst h1
      exact absurd hsucc (by intro hx; exact Option.noConfusion hx)
    | raised => rw [hl] at h; dsimp only at h; cases h
    | outOfFuel => rw [hl] at h; dsimp only at h; cases h

/-- Every success envelope of `search_service_items` reports
`total_count` equal to the length of its `items` payload. -/
theorem search_service_items_count (query : String) (backend : HttpResult) (env : Json)
    (h : McpService.search_service_items query backend = .out env)
    (hsucc : env.objLookup "success" = some (.bool true)) :
    ∃ xs : List Json, env.objLookup "items" = some (.arr xs) ∧
      env.objLookup "total_count" = some (.num (xs.length : Int)) := by
  rw [McpService.search_service_items.eq_def] at h
  by_cases hq : pyStrip query = ""
  · rw [if_pos hq] at h
    injection h with h1
    subst h1
    exact absurd hsucc (by intro hx; exact Option.noConfusion hx)
  · rw [if_neg hq] at h
    cases backend with
    | ok data =>
      cases hd : data with
      | obj fs =>
        rw [hd] at h
        dsimp only at h
        by_cases ht : (pyGetD fs "service_items" (.arr [])).truthy = true
        · rw [if_neg (not_not_intro ht)] at h
          cases hr : pyGetD fs "service_items" (.arr []) with
          | arr xs =>
            rw [hr] at h
            dsimp only at h
            cases hm : mapMOpt _format_service_item xs with
            | some formatted =>
              rw [hm] at h
              injection h with h1
              subst h1
              exact ⟨formatted, rfl, rfl⟩
            | none => rw [hm] at h; cases h
          | null => rw [hr] at h; dsimp only at h; cases h
          | bool b => rw [hr] at h; dsimp only at h; cases h
          | num n => rw [hr] at h; dsimp only at h; cases h
          | str s => rw [hr] at h; dsimp only at h; cases h
          | obj gs => rw [hr] at h; dsimp only at h; cases h
        · rw [if_pos ht] at h
          injection h with h1
          subst h1
          exact ⟨[], rfl, rfl⟩
      | null => rw [hd] at h; cases h
      | bool b => rw [hd] at h; cases h
      | num n => rw [hd] at h; cases h
      | str s => rw [hd] at h; cases h
      | arr xs => rw [hd] at h; cases h
    | httpError status errStr details =>
      injection h with h1
      subst h1
      exact absurd hsucc (by intro hx; exact Option.noConfusion hx)
    | exc msg =>
      injection h with h1
      subst h1
      exact absurd hsucc (by intro hx; exact Option.noConfusion hx)

/-- C10: every success envelope of a collection-returning tool reports
a `total_count` consistent with its payload: the payload length for
`list_all_departments`, `search_requesters_by_name`,
`get_requesters_by_department_id`, `search_solutions` and
`search_service_items`; and for `list_all_service_items` — whose
`items` list holds whole page objects, not resource items — the sum of
the nested `service_items` array lengths over the returned pages. -/
theorem c10_total_count_consistent :
    (∀ (backend : Nat → HttpResult) (fuel : Nat) (env : Json),
      list_all_departments backend fuel = .out env →
      env.objLookup "success" = some (.bool true) →
      ∃ items : List Json, env.objLookup "departments" = some (.arr items) ∧
        env.objLookup "total_count" = some (.num (items.length : Int)))
    ∧ (∀ (fn ln : Option String) (backend : HttpResult) (env : Json) (cnt : Nat),
      McpRequesters.search_requesters_by_name fn ln backend = (.out env, cnt) →
      env.objLookup "success" = some (.bool true) →
      ∃ rs : List Json, env.objLookup "requesters" = some (.arr rs) ∧
        env.objLookup "total_count" = some (.num (rs.length : Int)))
    ∧ (∀ (did : Int) (getAll : Bool) (backend : Nat → HttpResult) (fuel : Nat) (env : Json),
      McpRequesters.get_requesters_by_department_id did getAll backend fuel = .out env →
      env.objLookup "success" = some (.bool true) →
      ∃ rs : List Json, env.objLookup "requesters" = some (.arr rs) ∧
        env.objLookup "total_count" = some (.num (rs.length : Int)))
    ∧ (∀ (md : String → String) (domain searchTerm : String) (backend : Nat → HttpResult)
        (fuel : Nat) (env : Json),
      McpSolutions.search_solutions md domain searchTerm backend fuel = .out env →
      env.objLookup "success" = some (.bool true) →
      ∃ arts : List Json, env.objLookup "articles" = some (.arr arts) ∧
        env.objLookup "total_count" = some (.num (arts.length : Int)))
    ∧ (∀ (query : String) (backend : HttpResult) (env : Json),
      McpService.search_service_items query backend = .out env →
      env.objLookup "success" = some (.bool true) →
      ∃ xs : List Json, env.objLookup "items" = some (.arr xs) ∧
        env.objLookup "total_count" = some (.num (xs.length : Int)))
    ∧ (∀ (perPage : Int) (backend : Nat → HttpResult) (fuel : Nat) (env : Json),
      (∀ q b, backend q = .ok b → wfServicePage b = true) →
      McpService.list_all_service_items perPage backend fuel = .out env →
      env.objLookup "success" = some (.bool true) →
      ∃ pages : List Json, env.objLookup "items" = some (.arr pages) ∧
        env.objLookup "total_count" =
          some (.num ((pages.map (fun p => ((service_items_of p).length : Int))).sum))) :=
  ⟨list_all_departments_count,
   search_requesters_by_name_count,
   get_requesters_by_department_id_count,
   search_solutions_count,
   search_service_items_count,
   fun perPage backend fuel env hwf h hsucc =>
     list_all_service_items_count perPage backend fuel env hwf h hsucc⟩

/-- A one-page backend for exercising C10 on `list_all_departments`. -/
def c10Backend : Nat → HttpResult := fun _ =>
  .ok (.obj [("departments", .arr [.num 5])])

theorem c10_total_count_consistent_witness :
    ∃ items : List Json,
      (Json.obj [
        ("success", .bool true),
        ("departments", .arr [.num 5]),
        ("total_count", .num 1),
        ("pages_fetched", .num 1)]).objLookup "departments" = some (.arr items) ∧
      (Json.obj [
        ("success", .bool true),
        ("departments", .arr [.num 5]),
        ("total_count", .num 1),
        ("pages_fetched", .num 1)]).objLookup "total_count" =
        some (.num (items.length : Int)) :=
  c10_total_count_consistent.1 c10Backend 1
    (.obj [
      ("success", .bool true),
      ("departments", .arr [.num 5]),
      ("total_count", .num 1),
      ("pages_fetched", .num 1)])
    rfl rfl
